import Mathlib

/-!
Shallow embedding of the authoritative game server of the pixel-survival
repository (the compiled server source, `src/unnamed/part_000`).

Conventions of the embedding:
* JS numbers holding resource levels, scores and amounts are modelled as `Int`
  (the source only ever adds/subtracts integers on them, with explicit
  `Math.max 0` / `Math.min 100` clamps which are kept verbatim).
* Positions used by the collection logic are modelled as `ℚ` pairs; the
  source's radius test `Math.sqrt (dx*dx+dy*dy) < R` is embedded as the
  equivalent squared comparison `dx*dx+dy*dy < R*R` (lemma
  `distLt_iff_sqrt_lt` proves the equivalence over `ℝ`).
* Positions used by the movement integrator, where the actual value of the
  square root matters (the step is `(dx/dist)*speed`), are modelled as `ℝ`.
* The source's `Map`s are modelled as lists; randomness (spawn positions,
  amounts, the 50% spawn coin) is passed in as explicit parameters.
-/

namespace PixelSurvival

/-- Source constant `MAX_RESOURCE_VALUE = 100`. -/
def MAX_RESOURCE_VALUE : Int := 100

/-- Source constant `MAX_RESOURCE_FILL = 10`. -/
def MAX_RESOURCE_FILL : Int := 10

/-- Source constant `GAME_DURATION = 120`. -/
def GAME_DURATION : Int := 120

/-- Source constant `PREPARATION_TIME = 3`. -/
def PREPARATION_TIME : Int := 3

/-- Source constant `MIN_RESOURCES = 15`. -/
def MIN_RESOURCES : Nat := 15

/-- Source constant `MAX_RESOURCES = 30`. -/
def MAX_RESOURCES : Nat := 30

/-- Source constant `RESOURCE_COLLECTION_RADIUS = 20`. -/
def RESOURCE_COLLECTION_RADIUS : ℚ := 20

/-- The three resource types of the game (`'food' | 'water' | 'oxygen'`). -/
inductive RType
  | food
  | water
  | oxygen
deriving DecidableEq, Repr

/-- A player's resource-level triple `player.resources`. -/
structure Resources where
  food : Int
  water : Int
  oxygen : Int
deriving DecidableEq, Repr

/-- Indexed read `player.resources[type]`. -/
def Resources.get (r : Resources) : RType → Int
  | .food => r.food
  | .water => r.water
  | .oxygen => r.oxygen

/-- Indexed write `player.resources[type] = v`. -/
def Resources.set (r : Resources) : RType → Int → Resources
  | .food, v => { r with food := v }
  | .water, v => { r with water := v }
  | .oxygen, v => { r with oxygen := v }

/-- All three levels lie in the interval `[0, 100]`. -/
def Resources.inRange (r : Resources) : Prop :=
  0 ≤ r.food ∧ r.food ≤ MAX_RESOURCE_VALUE ∧
  0 ≤ r.water ∧ r.water ≤ MAX_RESOURCE_VALUE ∧
  0 ≤ r.oxygen ∧ r.oxygen ≤ MAX_RESOURCE_VALUE

instance (r : Resources) : Decidable r.inRange := by
  unfold Resources.inRange; infer_instance

/-- The full triple `{food: 100, water: 100, oxygen: 100}` used at
registration, at `startGameCycle` and at `endGame`. -/
def fullResources : Resources :=
  ⟨MAX_RESOURCE_VALUE, MAX_RESOURCE_VALUE, MAX_RESOURCE_VALUE⟩

/-- A 2D position as used by the collection logic. -/
structure Pos where
  x : ℚ
  y : ℚ
deriving DecidableEq, Repr

/-- A collectible resource (source interface: `id`, `type`, `position`,
`amount`); the `type` field is called `rtype` here. -/
structure Resource where
  id : Nat
  rtype : RType
  pos : Pos
  amount : Int
deriving DecidableEq, Repr

/-- A connected player (source: the entry of `gameState.players`). -/
structure Player where
  id : Nat
  name : String
  pos : Pos
  resources : Resources
  score : Int
  isInSafeZone : Bool
  isSpectator : Bool
deriving DecidableEq, Repr

/-- The player built by the `register` handler: full resources, score 0,
not a spectator (position is the random draw, passed in). -/
def newPlayer (id : Nat) (name : String) (pos : Pos) : Player :=
  { id := id, name := name, pos := pos, resources := fullResources,
    score := 0, isInSafeZone := false, isSpectator := false }

/-- The source's radius test `getDistance p q < c`, embedded as the squared
comparison (equivalent for `c > 0`, see `distLt_iff_sqrt_lt`). -/
def distLt (p q : Pos) (c : ℚ) : Bool :=
  decide ((p.x - q.x) * (p.x - q.x) + (p.y - q.y) * (p.y - q.y) < c * c)

/-- Source `checkResourceCollection(player, resources)`: walks the resource
list, and on the FIRST resource within the collection radius adds its amount
to the player's score and returns it; returns `none` when no resource is in
range.  Note the score is incremented here, before any cap computation. -/
def checkResourceCollection (p : Player) : List Resource → Player × Option Resource
  | [] => (p, none)
  | r :: rest =>
    if distLt p.pos r.pos RESOURCE_COLLECTION_RADIUS then
      ({ p with score := p.score + r.amount }, some r)
    else
      checkResourceCollection p rest

/-- The slice of `gameState` touched by a single player's collection:
the player and the shared resource list. -/
structure CState where
  player : Player
  resources : List Resource
deriving DecidableEq, Repr

/-- Source `collectResource` socket handler: spectator guard, then
`checkResourceCollection`; on a hit, compute
`maxAddition = min (min amount MAX_RESOURCE_FILL) (max 0 (100 - current))`
and only when it is positive update the level and remove the resource. -/
def collectResourceStep (s : CState) : CState :=
  if s.player.isSpectator then s
  else
    match checkResourceCollection s.player s.resources with
    | (p, none) => { s with player := p }
    | (p, some r) =>
      let currentValue := p.resources.get r.rtype
      let maxAddition :=
        min (min r.amount MAX_RESOURCE_FILL) (max 0 (MAX_RESOURCE_VALUE - currentValue))
      if 0 < maxAddition then
        { player := { p with resources := p.resources.set r.rtype (currentValue + maxAddition) },
          resources := s.resources.filter (fun q => q.id != r.id) }
      else
        { s with player := p }

/-- The collection part of a movement tick (source `updatePlayerPositions`,
after the step): `checkResourceCollection`; on a hit remove the resource and
set the level to `min 100 (current + amount)`. -/
def tickCollect (s : CState) : CState :=
  match checkResourceCollection s.player s.resources with
  | (p, none) => { s with player := p }
  | (p, some r) =>
    let newLevel := min MAX_RESOURCE_VALUE (p.resources.get r.rtype + r.amount)
    { player := { p with resources := p.resources.set r.rtype newLevel },
      resources := s.resources.filter (fun q => q.id != r.id) }

/-- Source `isPlayerDead`: all three levels are exactly 0. -/
def isPlayerDead (p : Player) : Bool :=
  p.resources.food == 0 && p.resources.water == 0 && p.resources.oxygen == 0

/-- Source `handlePlayerDeath` (state effect): mark the player a spectator and
zero the three levels.  The source additionally emits `playerDied` to the
player and broadcasts `playerBecameSpectator` every time it runs. -/
def handlePlayerDeath (p : Player) : Player :=
  { p with isSpectator := true, resources := ⟨0, 0, 0⟩ }

/-- The depletion update applied to one level triple:
`Math.max 0 (level - rate)` on each of the three levels. -/
def deplete (rate : Int) (r : Resources) : Resources :=
  ⟨max 0 (r.food - rate), max 0 (r.water - rate), max 0 (r.oxygen - rate)⟩

/-- The per-player body of the 1 Hz `gameLoop`: if it is daytime or the player
is outside every safe zone, deplete all three levels (rate 15 at night outside
a safe zone, else 5) and, when all three levels are then 0, run
`handlePlayerDeath`.  The returned `Bool` is true exactly when
`handlePlayerDeath` ran this tick (each such run emits the `playerDied` and
`playerBecameSpectator` notifications).  Note the source iterates over ALL
players here, with no spectator guard. -/
def gameLoopPlayerStep (isDayTime : Bool) (p : Player) : Player × Bool :=
  if isDayTime || !p.isInSafeZone then
    let depletionRate : Int := if !isDayTime && !p.isInSafeZone then 15 else 5
    let p' := { p with resources := deplete depletionRate p.resources }
    if isPlayerDead p' then (handlePlayerDeath p', true) else (p', false)
  else
    (p, false)

/-- Source `startGameCycle`'s per-player reset: non-spectators get score 0 and
full resources; spectators are left untouched ("keep spectators as
spectators"). -/
def startGameCyclePlayer (p : Player) : Player :=
  if !p.isSpectator then
    { p with score := 0, resources := fullResources }
  else
    p

/-- Source `endGame`'s per-player reset (applied to every player, spectators
included): score 0 and full resources. -/
def endGameResetPlayer (p : Player) : Player :=
  { p with score := 0, resources := fullResources }

/-- The movement intent stored in `playerMovements` by the `movePlayer`
handler. -/
structure MovementIntent where
  targetX : ℝ
  targetY : ℝ
  isMoving : Bool

/-- Source `movePlayer` socket handler (state effect when the player exists
and is not a spectator): stores the client-supplied coordinates verbatim as
the movement target — no clamping of any kind is applied. -/
def movePlayerHandler (x y : ℝ) : MovementIntent :=
  { targetX := x, targetY := y, isMoving := true }

/-- Source `updatePlayerPositions` fatigue test: some level is exactly 0. -/
def isFatigued (r : Resources) : Bool :=
  r.food == 0 || r.water == 0 || r.oxygen == 0

/-- The distance from `(px, py)` to `(tx, ty)` as computed by the source's
`getDistance` (`Math.sqrt (dx*dx + dy*dy)`). -/
noncomputable def distVal (px py tx ty : ℝ) : ℝ :=
  Real.sqrt ((tx - px) * (tx - px) + (ty - py) * (ty - py))

/-- The position update of one movement tick for one player (source
`updatePlayerPositions`, lines before the collection check): if the distance
to the target is below 1, snap to the target and clear `isMoving`; otherwise
step by `(dx/distance) * speed` with base speed 5, halved when any resource
level is 0.  Returns the new position and the new `isMoving` flag.  No bounds
clamping is applied anywhere. -/
noncomputable def moveStep (px py tx ty : ℝ) (r : Resources) : (ℝ × ℝ) × Bool :=
  let dx := tx - px
  let dy := ty - py
  let distance := distVal px py tx ty
  if distance < 1 then
    ((tx, ty), false)
  else
    let speed : ℝ := if isFatigued r then 5 / 2 else 5
    ((px + dx / distance * speed, py + dy / distance * speed), true)

/-- The session status `gameState.gameStatus`. -/
inductive GStatus
  | waiting
  | running
  | finished
deriving DecidableEq, Repr

/-- A safe zone (`id`, `position`, `radius`). -/
structure SafeZone where
  id : Nat
  pos : Pos
  radius : ℚ
deriving DecidableEq, Repr

/-- The shared `gameState` object (players modelled as a list). -/
structure GState where
  players : List Player
  resources : List Resource
  safeZones : List SafeZone
  isDayTime : Bool
  timeRemaining : Int
  gameStatus : GStatus
deriving DecidableEq, Repr

/-- Source `startGameCycle` (state effect): status `waiting`, countdown set to
`PREPARATION_TIME`, resources cleared, and every player reset via
`startGameCyclePlayer` (non-spectators only). -/
def startGameCycleState (s : GState) : GState :=
  { s with gameStatus := .waiting,
           timeRemaining := PREPARATION_TIME,
           resources := [],
           players := s.players.map startGameCyclePlayer }

/-- Source `startGame`, run when the preparation countdown reaches zero: if no
non-spectator player exists, restart the waiting cycle; otherwise enter
`running` with `timeRemaining = GAME_DURATION`, daytime, and freshly generated
resources and safe zones (the random generation is passed in as
`newResources` / `newZones`). -/
def startGame (s : GState) (newResources : List Resource)
    (newZones : List SafeZone) : GState :=
  let activePlayers := s.players.filter (fun p => !p.isSpectator)
  if activePlayers.length = 0 then
    startGameCycleState s
  else
    { s with gameStatus := .running,
             timeRemaining := GAME_DURATION,
             isDayTime := true,
             resources := newResources,
             safeZones := newZones }

/-- One invocation of the resource-spawn interval body (source
`startResourceSpawning`): a no-op unless `running`; a no-op at or above
`MAX_RESOURCES`; below `MIN_RESOURCES`, spawn exactly the shortfall; otherwise
spawn one resource with 50% probability (the coin and the freshly generated
resources are passed in). -/
def spawnTick (s : GState) (coin : Bool) (fresh : Nat → Resource) : GState :=
  if s.gameStatus ≠ .running then s
  else
    let currentResourceCount := s.resources.length
    if MAX_RESOURCES ≤ currentResourceCount then s
    else if currentResourceCount < MIN_RESOURCES then
      { s with resources :=
          s.resources ++ (List.range (MIN_RESOURCES - currentResourceCount)).map fresh }
    else if coin then
      { s with resources := s.resources ++ [fresh 0] }
    else s

/-- Source `endGame`'s winner computation:
`players.reduce((prev, current) => prev.score > current.score ? prev : current)`.
A JS `reduce` without an initial value has no defined result on an empty
array (it throws a `TypeError`), modelled as `none`. -/
def endGameWinner : List Player → Option Player
  | [] => none
  | p :: rest =>
    some (rest.foldl (fun prev current =>
      if prev.score > current.score then prev else current) p)

/-- A leaderboard entry `{playerName, score}`. -/
structure LBEntry where
  playerName : String
  score : Int
deriving DecidableEq, Repr

/-- Source constant `MAX_LEADERBOARD_ENTRIES = 10`. -/
def MAX_LEADERBOARD_ENTRIES : Nat := 10

/-- The descending-by-score order used by the source's
`sort((a, b) => b.score - a.score)`. -/
def lbGE (a b : LBEntry) : Prop := b.score ≤ a.score

instance : DecidableRel lbGE := fun a b => by unfold lbGE; infer_instance

instance : IsTotal LBEntry lbGE :=
  ⟨fun a b => le_total b.score a.score⟩

instance : IsTrans LBEntry lbGE :=
  ⟨fun _ _ _ h h' => le_trans h' h⟩

/-- Sorting descending by score, as the source's `leaderboard.sort`. -/
def sortDesc (l : List LBEntry) : List LBEntry :=
  l.insertionSort lbGE

/-- In-place update of the score of the first entry with the given name
(the source mutates the object returned by `find`). -/
def updateScoreFirst (name : String) (score : Int) : List LBEntry → List LBEntry
  | [] => []
  | e :: rest =>
    if e.playerName = name then { e with score := score } :: rest
    else e :: updateScoreFirst name score rest

/-- Source `updateLeaderboard(playerName, score)`: if an entry with that name
exists, overwrite its score only when the new score is strictly greater, then
re-sort; otherwise push a new entry, re-sort, and pop the last (lowest) entry
when the length exceeds `MAX_LEADERBOARD_ENTRIES`. -/
def updateLeaderboard (lb : List LBEntry) (name : String) (score : Int) :
    List LBEntry :=
  match lb.find? (fun e => e.playerName == name) with
  | some existingEntry =>
    if existingEntry.score < score then
      sortDesc (updateScoreFirst name score lb)
    else lb
  | none =>
    let lb' := sortDesc (lb ++ [⟨name, score⟩])
    if MAX_LEADERBOARD_ENTRIES < lb'.length then lb'.dropLast else lb'

/-- The leaderboard invariant of the claim: at most 10 entries, sorted
descending by score, names pairwise distinct. -/
def lbInv (l : List LBEntry) : Prop :=
  l.length ≤ MAX_LEADERBOARD_ENTRIES ∧ l.Pairwise lbGE ∧
    (l.map LBEntry.playerName).Nodup

/-- Data-model invariant on the resource list: every present resource has an
amount in `[1, MAX_RESOURCE_FILL]` (both generation paths use
`Math.floor(Math.random() * MAX_RESOURCE_FILL) + 1`). -/
def amountOk (rs : List Resource) : Prop :=
  ∀ r ∈ rs, 1 ≤ r.amount ∧ r.amount ≤ MAX_RESOURCE_FILL

instance (rs : List Resource) : Decidable (amountOk rs) := by
  unfold amountOk; infer_instance

/-! ## Theorems -/

/-- The squared comparison of `distLt` coincides with the source's
`Math.sqrt (dx*dx+dy*dy) < c` for a positive radius `c`. -/
theorem distLt_iff_sqrt_lt (p q : Pos) (c : ℚ) (hc : 0 < c) :
    distLt p q c = true ↔
      Real.sqrt (((p.x : ℝ) - q.x) * ((p.x : ℝ) - q.x) +
        ((p.y : ℝ) - q.y) * ((p.y : ℝ) - q.y)) < (c : ℝ) := by
  have hc' : (0 : ℝ) < (c : ℝ) := by exact_mod_cast hc
  rw [Real.sqrt_lt' hc', distLt, decide_eq_true_iff]
  constructor
  · intro h
    have h' := (Rat.cast_lt (K := ℝ)).2 h
    push_cast at h' ⊢
    nlinarith [h']
  · intro h
    have h' : ((p.x - q.x) * (p.x - q.x) + (p.y - q.y) * (p.y - q.y) : ℝ) <
        ((c * c : ℚ) : ℝ) := by push_cast; nlinarith [h]
    exact_mod_cast h'

theorem Resources.get_nonneg {r : Resources} (h : r.inRange) (t : RType) :
    0 ≤ r.get t := by
  rcases h with ⟨h1, h2, h3, h4, h5, h6⟩
  cases t <;> simpa [Resources.get]

theorem Resources.get_le {r : Resources} (h : r.inRange) (t : RType) :
    r.get t ≤ MAX_RESOURCE_VALUE := by
  rcases h with ⟨h1, h2, h3, h4, h5, h6⟩
  cases t <;> simpa [Resources.get]

theorem Resources.set_inRange {r : Resources} (h : r.inRange) (t : RType)
    {v : Int} (h0 : 0 ≤ v) (h1 : v ≤ MAX_RESOURCE_VALUE) :
    (r.set t v).inRange := by
  rcases h with ⟨a1, a2, a3, a4, a5, a6⟩
  cases t <;>
    exact ⟨by simpa [Resources.set] using ‹_›, by simpa [Resources.set] using ‹_›,
      by simpa [Resources.set] using ‹_›, by simpa [Resources.set] using ‹_›,
      by simpa [Resources.set] using ‹_›, by simpa [Resources.set] using ‹_›⟩

theorem fullResources_inRange : fullResources.inRange := by
  refine ⟨?_, ?_, ?_, ?_, ?_, ?_⟩ <;> simp [fullResources, MAX_RESOURCE_VALUE]

theorem deplete_inRange {r : Resources} (h : r.inRange) {rate : Int}
    (hrate : 0 ≤ rate) : (deplete rate r).inRange := by
  rcases h with ⟨a1, a2, a3, a4, a5, a6⟩
  refine ⟨?_, ?_, ?_, ?_, ?_, ?_⟩ <;> simp [deplete, MAX_RESOURCE_VALUE] at * <;> omega

theorem handlePlayerDeath_inRange (p : Player) :
    (handlePlayerDeath p).resources.inRange := by
  refine ⟨?_, ?_, ?_, ?_, ?_, ?_⟩ <;> norm_num [handlePlayerDeath, MAX_RESOURCE_VALUE]

/-- On a miss, `checkResourceCollection` returns the player unchanged. -/
theorem checkResourceCollection_none {p q : Player} :
    ∀ {rs : List Resource}, checkResourceCollection p rs = (q, none) → q = p := by
  intro rs
  induction rs with
  | nil =>
    intro h
    have h' : (p, (none : Option Resource)) = (q, none) := by
      simpa [checkResourceCollection] using h
    exact (congrArg Prod.fst h').symm
  | cons r rest ih =>
    intro h
    by_cases hd : distLt p.pos r.pos RESOURCE_COLLECTION_RADIUS
    · simp [checkResourceCollection, hd] at h
    · exact ih (by simpa [checkResourceCollection, hd] using h)

/-- On a hit, `checkResourceCollection` returns a resource of the list and the
player with only the score increased by that resource's amount. -/
theorem checkResourceCollection_some {p q : Player} {r : Resource} :
    ∀ {rs : List Resource}, checkResourceCollection p rs = (q, some r) →
      r ∈ rs ∧ q = { p with score := p.score + r.amount } := by
  intro rs
  induction rs with
  | nil => intro h; simp [checkResourceCollection] at h
  | cons a rest ih =>
    intro h
    by_cases hd : distLt p.pos a.pos RESOURCE_COLLECTION_RADIUS
    · have h' := h
      simp [checkResourceCollection, hd] at h'
      rcases h' with ⟨hq, ha⟩
      subst ha
      exact ⟨List.mem_cons_self _ _, hq.symm⟩
    · have h' : checkResourceCollection p rest = (q, some r) := by
        simpa [checkResourceCollection, hd] using h
      rcases ih h' with ⟨hm, hq⟩
      exact ⟨List.mem_cons_of_mem _ hm, hq⟩

/-- C1: for every player present in the game state, after every operation
(registration, movement tick, collection — both paths —, macro-tick depletion,
death, session reset at `startGameCycle` and at `endGame`), each of the three
resource levels food, water, oxygen is an element of `[0, 100]`. -/
theorem C1_levels_in_range (id : Nat) (nm : String) (pos : Pos)
    (d : Bool) (p : Player) (s : CState)
    (hp : p.resources.inRange) (hs : s.player.resources.inRange)
    (ha : amountOk s.resources) :
    (newPlayer id nm pos).resources.inRange ∧
    ((gameLoopPlayerStep d p).1).resources.inRange ∧
    (tickCollect s).player.resources.inRange ∧
    (collectResourceStep s).player.resources.inRange ∧
    (handlePlayerDeath p).resources.inRange ∧
    (startGameCyclePlayer p).resources.inRange ∧
    (endGameResetPlayer p).resources.inRange := by
  refine ⟨fullResources_inRange, ?_, ?_, ?_, ?_, ?_, ?_⟩
  · unfold gameLoopPlayerStep
    split
    · split
      · dsimp only
        split
        · exact handlePlayerDeath_inRange _
        · exact deplete_inRange hp (by norm_num)
      · dsimp only
        split
        · exact handlePlayerDeath_inRange _
        · exact deplete_inRange hp (by norm_num)
    · exact hp
  · unfold tickCollect
    rcases hcc : checkResourceCollection s.player s.resources with ⟨q, orr⟩
    rcases orr with _ | r
    · simpa using (checkResourceCollection_none hcc ▸ hs)
    · rcases checkResourceCollection_some hcc with ⟨hm, hq⟩
      have hqres : q.resources = s.player.resources := by rw [hq]
      have hamt := ha r hm
      simp only
      refine Resources.set_inRange (hqres ▸ hs) _ ?_ ?_
      · have h0 := Resources.get_nonneg (hqres ▸ hs) r.rtype
        simp only [le_min_iff]
        constructor
        · norm_num [MAX_RESOURCE_VALUE]
        · omega
      · exact min_le_left _ _
  · unfold collectResourceStep
    split
    · exact hs
    rcases hcc : checkResourceCollection s.player s.resources with ⟨q, orr⟩
    rcases orr with _ | r
    · simpa using (checkResourceCollection_none hcc ▸ hs)
    · rcases checkResourceCollection_some hcc with ⟨hm, hq⟩
      have hqres : q.resources = s.player.resources := by rw [hq]
      simp only
      split
      · have h0 := Resources.get_nonneg (hqres ▸ hs) r.rtype
        have h1 := Resources.get_le (hqres ▸ hs) r.rtype
        refine Resources.set_inRange (hqres ▸ hs) _ ?_ ?_
        · omega
        · have : min (min r.amount MAX_RESOURCE_FILL)
              (max 0 (MAX_RESOURCE_VALUE - q.resources.get r.rtype)) ≤
              max 0 (MAX_RESOURCE_VALUE - q.resources.get r.rtype) := min_le_right _ _
          omega
      · exact hqres ▸ hs
  · exact handlePlayerDeath_inRange _
  · unfold startGameCyclePlayer
    split
    · exact fullResources_inRange
    · exact hp
  · exact fullResources_inRange

/-- Witness for C1 at a concrete state: one player with mid levels, one
in-range resource on the map. -/
theorem C1_levels_in_range_witness :
    (newPlayer 1 "ann" ⟨0, 0⟩).resources.inRange ∧
    ((gameLoopPlayerStep true
        ⟨1, "ann", ⟨0, 0⟩, ⟨40, 50, 60⟩, 0, false, false⟩).1).resources.inRange ∧
    (tickCollect ⟨⟨1, "ann", ⟨0, 0⟩, ⟨40, 50, 60⟩, 0, false, false⟩,
        [⟨7, .food, ⟨3, 4⟩, 5⟩]⟩).player.resources.inRange ∧
    (collectResourceStep ⟨⟨1, "ann", ⟨0, 0⟩, ⟨40, 50, 60⟩, 0, false, false⟩,
        [⟨7, .food, ⟨3, 4⟩, 5⟩]⟩).player.resources.inRange ∧
    (handlePlayerDeath ⟨1, "ann", ⟨0, 0⟩, ⟨40, 50, 60⟩, 0, false, false⟩).resources.inRange ∧
    (startGameCyclePlayer ⟨1, "ann", ⟨0, 0⟩, ⟨40, 50, 60⟩, 0, false, false⟩).resources.inRange ∧
    (endGameResetPlayer ⟨1, "ann", ⟨0, 0⟩, ⟨40, 50, 60⟩, 0, false, false⟩).resources.inRange :=
  C1_levels_in_range 1 "ann" ⟨0, 0⟩ true
    ⟨1, "ann", ⟨0, 0⟩, ⟨40, 50, 60⟩, 0, false, false⟩
    ⟨⟨1, "ann", ⟨0, 0⟩, ⟨40, 50, 60⟩, 0, false, false⟩, [⟨7, .food, ⟨3, 4⟩, 5⟩]⟩
    (by decide) (by decide) (by decide)

/-- C2 counterexample: the death transition is NOT triggered at most once per
session.  A player at levels (5,5,5) outside a safe zone dies on the first
daytime macro tick (first `playerDied`/`playerBecameSpectator` emission), and
because `gameLoop` applies depletion and the death check to every player with
no spectator guard, the very next macro tick runs `handlePlayerDeath` — and
its notifications — again for the same (already spectator) player. -/
theorem C2_death_once_counterexample :
    ((gameLoopPlayerStep true ⟨1, "bob", ⟨0, 0⟩, ⟨5, 5, 5⟩, 0, false, false⟩).2 = true) ∧
    (((gameLoopPlayerStep true ⟨1, "bob", ⟨0, 0⟩, ⟨5, 5, 5⟩, 0, false, false⟩).1).isSpectator
      = true) ∧
    ((gameLoopPlayerStep true
        (gameLoopPlayerStep true ⟨1, "bob", ⟨0, 0⟩, ⟨5, 5, 5⟩, 0, false, false⟩).1).2
      = true) := by
  decide

/-- C2 (amended): a player transitions to spectator only when all three
resource levels are simultaneously 0 (whenever the death handler fires, the
player ends the tick as a spectator with zeroed levels); but the transition is
NOT limited to once per session: the macro tick re-runs `handlePlayerDeath`
(with both notifications) for any player whose levels are all 0 whenever
depletion applies — including players who are already spectators. -/
theorem C2_death_amended (d : Bool) (p : Player) :
    ((gameLoopPlayerStep d p).2 = true →
      ((gameLoopPlayerStep d p).1).isSpectator = true ∧
      ((gameLoopPlayerStep d p).1).resources = ⟨0, 0, 0⟩) ∧
    (p.isSpectator = true → p.resources = ⟨0, 0, 0⟩ →
      (d = true ∨ p.isInSafeZone = false) → (gameLoopPlayerStep d p).2 = true) := by
  by_cases hc1 : (d || !p.isInSafeZone) = true
  · by_cases hc2 : (!d && !p.isInSafeZone) = true
    · by_cases hc3 : isPlayerDead { p with resources := deplete 15 p.resources } = true
      · refine ⟨fun _ => ?_, fun _ _ _ => ?_⟩ <;>
          simp [gameLoopPlayerStep, hc1, hc2, hc3, handlePlayerDeath]
      · refine ⟨fun h2 => absurd h2 ?_, fun hspec hres hcond => ?_⟩
        · simp [gameLoopPlayerStep, hc1, hc2, hc3]
        · exact absurd (by rw [hres]; simp [isPlayerDead, deplete]) hc3
    · by_cases hc3 : isPlayerDead { p with resources := deplete 5 p.resources } = true
      · refine ⟨fun _ => ?_, fun _ _ _ => ?_⟩ <;>
          simp [gameLoopPlayerStep, hc1, hc2, hc3, handlePlayerDeath]
      · refine ⟨fun h2 => absurd h2 ?_, fun hspec hres hcond => ?_⟩
        · simp [gameLoopPlayerStep, hc1, hc2, hc3]
        · exact absurd (by rw [hres]; simp [isPlayerDead, deplete]) hc3
  · refine ⟨fun h2 => absurd h2 ?_, fun hspec hres hcond => ?_⟩
    · simp [gameLoopPlayerStep, hc1]
    · rcases hcond with h | h <;> simp [h] at hc1

/-- Witness for C2 (amended): a live player dying on a daytime tick, and an
already-spectator player for whom the handler fires again. -/
theorem C2_death_amended_witness :
    (((gameLoopPlayerStep true ⟨1, "bob", ⟨0, 0⟩, ⟨5, 5, 5⟩, 0, false, false⟩).1).isSpectator
        = true ∧
      ((gameLoopPlayerStep true ⟨1, "bob", ⟨0, 0⟩, ⟨5, 5, 5⟩, 0, false, false⟩).1).resources
        = ⟨0, 0, 0⟩) ∧
    (gameLoopPlayerStep true ⟨2, "cat", ⟨0, 0⟩, ⟨0, 0, 0⟩, 0, false, true⟩).2 = true :=
  ⟨(C2_death_amended true ⟨1, "bob", ⟨0, 0⟩, ⟨5, 5, 5⟩, 0, false, false⟩).1 (by decide),
   (C2_death_amended true ⟨2, "cat", ⟨0, 0⟩, ⟨0, 0, 0⟩, 0, false, true⟩).2
     (by decide) (by decide) (Or.inl rfl)⟩

theorem length_filter_lt_of_mem {α : Type} {pr : α → Bool} {l : List α} {a : α}
    (ha : a ∈ l) (hpa : pr a = false) : (l.filter pr).length < l.length := by
  induction l with
  | nil => cases ha
  | cons b rest ih =>
    by_cases hb : pr b = true
    · have hmem : a ∈ rest := by
        rcases List.mem_cons.1 ha with rfl | h
        · rw [hpa] at hb; cases hb
        · exact h
      simpa [List.filter_cons, hb] using Nat.succ_lt_succ (ih hmem)
    · have hb' : pr b = false := by simpa using hb
      simpa [List.filter_cons, hb'] using Nat.lt_succ_of_le (List.length_filter_le _ _)

/-- C3 counterexample: a collection attempt that removes no resource still
increases the score.  A non-spectator player whose food level is exactly 100
issues `collectResource` next to a food resource of amount 5: the resource
list is left unchanged (the computed addition is 0, so nothing is removed),
yet the player's score grows from 0 to 5 — `checkResourceCollection` adds the
score before the cap computation. -/
theorem C3_score_counterexample :
    (collectResourceStep ⟨⟨1, "eve", ⟨0, 0⟩, ⟨100, 50, 50⟩, 0, false, false⟩,
        [⟨7, .food, ⟨0, 0⟩, 5⟩]⟩).resources = [⟨7, .food, ⟨0, 0⟩, 5⟩] ∧
    (collectResourceStep ⟨⟨1, "eve", ⟨0, 0⟩, ⟨100, 50, 50⟩, 0, false, false⟩,
        [⟨7, .food, ⟨0, 0⟩, 5⟩]⟩).player.score = 5 := by
  have hd : distLt (Pos.mk 0 0) (Pos.mk 0 0) RESOURCE_COLLECTION_RADIUS = true := by
    rw [distLt, decide_eq_true_iff]
    norm_num [RESOURCE_COLLECTION_RADIUS]
  have hcc : checkResourceCollection ⟨1, "eve", ⟨0, 0⟩, ⟨100, 50, 50⟩, 0, false, false⟩
      [⟨7, .food, ⟨0, 0⟩, 5⟩] =
      (⟨1, "eve", ⟨0, 0⟩, ⟨100, 50, 50⟩, 5, false, false⟩, some ⟨7, .food, ⟨0, 0⟩, 5⟩) := by
    simp [checkResourceCollection, hd]
  constructor <;>
    · unfold collectResourceStep
      rw [show ((⟨⟨1, "eve", ⟨0, 0⟩, ⟨100, 50, 50⟩, 0, false, false⟩,
            [⟨7, .food, ⟨0, 0⟩, 5⟩]⟩ : CState)).player.isSpectator = false from rfl]
      simp only [Bool.false_eq_true, if_false]
      rw [hcc]
      norm_num [Resources.get, MAX_RESOURCE_FILL, MAX_RESOURCE_VALUE]

/-- C3 (amended): in the movement-tick path the score increases iff a
resource is removed in the same step, and a removed resource (all entries
carrying its id) is gone from the state, so it can never be collected again;
in the explicit `collectResource` path a removal still implies a score
increase, and a removed resource is likewise gone — but a score increase
does NOT imply a removal: when the player's corresponding level is full the
score increases while the resource stays (see the counterexample). -/
theorem C3_score_amended (s : CState) (ha : amountOk s.resources) :
    ((tickCollect s).player.score ≠ s.player.score ↔
      (tickCollect s).resources.length < s.resources.length) ∧
    ((collectResourceStep s).resources.length < s.resources.length →
      s.player.score < (collectResourceStep s).player.score) ∧
    (∀ q r, checkResourceCollection s.player s.resources = (q, some r) →
      (∀ x ∈ (tickCollect s).resources, x.id ≠ r.id) ∧
      ((collectResourceStep s).resources = s.resources ∨
        ∀ x ∈ (collectResourceStep s).resources, x.id ≠ r.id)) := by
  refine ⟨?_, ?_, ?_⟩
  · rcases hcc : checkResourceCollection s.player s.resources with ⟨q, orr⟩
    rcases orr with _ | r
    · have hq := checkResourceCollection_none hcc
      subst hq
      unfold tickCollect
      rw [hcc]
      simp
    · rcases checkResourceCollection_some hcc with ⟨hm, hq⟩
      have hamt := (ha r hm).1
      unfold tickCollect
      rw [hcc]
      constructor
      · intro _
        exact length_filter_lt_of_mem hm (by simp)
      · intro _
        show q.score ≠ s.player.score
        rw [hq]
        exact (by omega : s.player.score + r.amount ≠ s.player.score)
  · unfold collectResourceStep
    split
    · intro h; exact absurd h (lt_irrefl _)
    · rcases hcc : checkResourceCollection s.player s.resources with ⟨q, orr⟩
      rcases orr with _ | r
      · intro h; exact absurd h (lt_irrefl _)
      · rcases checkResourceCollection_some hcc with ⟨hm, hq⟩
        have hamt := (ha r hm).1
        dsimp only
        split
        · intro _
          show s.player.score < q.score
          rw [hq]
          exact (by omega : s.player.score < s.player.score + r.amount)
        · intro h; exact absurd h (lt_irrefl _)
  · intro q r hcc
    constructor
    · unfold tickCollect
      rw [hcc]
      intro x hx
      have hx' := (List.mem_filter.1 hx).2
      simpa using hx'
    · unfold collectResourceStep
      split
      · exact Or.inl rfl
      · rw [hcc]
        dsimp only
        split
        · refine Or.inr fun x hx => ?_
          have hx' := (List.mem_filter.1 hx).2
          simpa using hx'
        · exact Or.inl rfl

/-- Witness for C3 (amended) at a concrete state: player at food 40 next to a
food resource of amount 5. -/
theorem C3_score_amended_witness :
    ((tickCollect ⟨⟨1, "eve", ⟨0, 0⟩, ⟨40, 50, 50⟩, 0, false, false⟩,
        [⟨7, .food, ⟨0, 0⟩, 5⟩]⟩).player.score ≠ 0 ↔
      (tickCollect ⟨⟨1, "eve", ⟨0, 0⟩, ⟨40, 50, 50⟩, 0, false, false⟩,
        [⟨7, .food, ⟨0, 0⟩, 5⟩]⟩).resources.length < 1) ∧
    ((collectResourceStep ⟨⟨1, "eve", ⟨0, 0⟩, ⟨40, 50, 50⟩, 0, false, false⟩,
        [⟨7, .food, ⟨0, 0⟩, 5⟩]⟩).resources.length < 1 →
      0 < (collectResourceStep ⟨⟨1, "eve", ⟨0, 0⟩, ⟨40, 50, 50⟩, 0, false, false⟩,
        [⟨7, .food, ⟨0, 0⟩, 5⟩]⟩).player.score) := by
  have h := C3_score_amended
    ⟨⟨1, "eve", ⟨0, 0⟩, ⟨40, 50, 50⟩, 0, false, false⟩, [⟨7, .food, ⟨0, 0⟩, 5⟩]⟩
    (by decide)
  exact ⟨h.1, h.2.1⟩

theorem updateScoreFirst_map_name (name : String) (score : Int) :
    ∀ l : List LBEntry, (updateScoreFirst name score l).map LBEntry.playerName =
      l.map LBEntry.playerName := by
  intro l
  induction l with
  | nil => rfl
  | cons e rest ih =>
    by_cases h : e.playerName = name
    · simp [updateScoreFirst, h]
    · simp [updateScoreFirst, h, ih]

theorem updateScoreFirst_length (name : String) (score : Int) (l : List LBEntry) :
    (updateScoreFirst name score l).length = l.length := by
  have h := congrArg List.length (updateScoreFirst_map_name name score l)
  simpa using h

/-- C4: after every `updateLeaderboard(name, score)` from an invariant state,
the leaderboard still holds at most 10 entries, stays sorted descending by
score, keeps at most one entry per name; and a submission whose score is not
strictly greater than the existing entry's score for the same name leaves the
leaderboard (in particular that entry) unchanged. -/
theorem C4_leaderboard (lb : List LBEntry) (name : String) (score : Int)
    (hinv : lbInv lb) :
    lbInv (updateLeaderboard lb name score) ∧
    (∀ e, lb.find? (fun x => x.playerName == name) = some e → score ≤ e.score →
      updateLeaderboard lb name score = lb) := by
  obtain ⟨hlen, hsort, hnodup⟩ := hinv
  constructor
  · unfold updateLeaderboard
    rcases hfind : lb.find? (fun e => e.playerName == name) with _ | e
    · rw [hfind]
      dsimp only
      have hperm : List.Perm (sortDesc (lb ++ [⟨name, score⟩])) (lb ++ [⟨name, score⟩]) :=
        List.perm_insertionSort _ _
      have hsorted : (sortDesc (lb ++ [⟨name, score⟩])).Pairwise lbGE :=
        List.sorted_insertionSort _ _
      have hnamefresh : ∀ x ∈ lb, x.playerName ≠ name := by
        intro x hx
        have h := List.find?_eq_none.1 hfind x hx
        simpa using h
      have hnodup' : ((sortDesc (lb ++ [⟨name, score⟩])).map LBEntry.playerName).Nodup := by
        rw [List.Perm.nodup_iff (hperm.map _), List.map_append]
        refine List.Nodup.append hnodup (List.nodup_singleton _) ?_
        intro a ha hb
        rw [List.map_singleton, List.mem_singleton] at hb
        subst hb
        rcases List.mem_map.1 ha with ⟨x, hx, hxName⟩
        exact hnamefresh x hx hxName
      have hlen' : (sortDesc (lb ++ [⟨name, score⟩])).length = lb.length + 1 := by
        rw [hperm.length_eq]
        simp
      split
      · refine ⟨?_, ?_, ?_⟩
        · rw [List.length_dropLast, hlen']
          simpa using hlen
        · exact List.Pairwise.sublist (List.dropLast_sublist _) hsorted
        · exact List.Nodup.sublist ((List.dropLast_sublist _).map _) hnodup'
      · next hnotlong =>
        exact ⟨Nat.not_lt.1 hnotlong, hsorted, hnodup'⟩
    · rw [hfind]
      dsimp only
      split
      · have hperm : List.Perm (sortDesc (updateScoreFirst name score lb))
            (updateScoreFirst name score lb) := List.perm_insertionSort _ _
        refine ⟨?_, List.sorted_insertionSort _ _, ?_⟩
        · rw [hperm.length_eq, updateScoreFirst_length]
          exact hlen
        · rw [List.Perm.nodup_iff (hperm.map _), updateScoreFirst_map_name]
          exact hnodup
      · exact ⟨hlen, hsort, hnodup⟩
  · intro e hfind hle
    unfold updateLeaderboard
    rw [hfind]
    exact if_neg (not_lt.2 hle)

/-- Witness for C4 at a concrete leaderboard of two entries and a fresh
submission. -/
theorem C4_leaderboard_witness :
    lbInv (updateLeaderboard [⟨"ann", 50⟩, ⟨"bob", 30⟩] "cat" 40) ∧
    (∀ e, ([⟨"ann", 50⟩, ⟨"bob", 30⟩] : List LBEntry).find?
        (fun x => x.playerName == "cat") = some e → 40 ≤ e.score →
      updateLeaderboard [⟨"ann", 50⟩, ⟨"bob", 30⟩] "cat" 40 =
        [⟨"ann", 50⟩, ⟨"bob", 30⟩]) :=
  C4_leaderboard [⟨"ann", 50⟩, ⟨"bob", 30⟩] "cat" 40
    ⟨by norm_num [MAX_LEADERBOARD_ENTRIES],
     by
      refine List.Pairwise.cons ?_ ?_
      · intro b hb
        rw [List.mem_singleton] at hb
        subst hb
        norm_num [lbGE]
      · exact List.pairwise_singleton _ _,
     by decide⟩

/-- C5 counterexample: the waiting-phase reset (`startGameCycle`) does NOT
reset `isSpectator` to false — a player who died in the previous session is
left entirely unchanged (still a spectator, resources still zeroed, old score
kept) when the next session's preparation phase starts. -/
theorem C5_spectator_reset_counterexample :
    startGameCyclePlayer ⟨3, "dan", ⟨0, 0⟩, ⟨0, 0, 0⟩, 7, false, true⟩ =
      ⟨3, "dan", ⟨0, 0⟩, ⟨0, 0, 0⟩, 7, false, true⟩ ∧
    (startGameCyclePlayer ⟨3, "dan", ⟨0, 0⟩, ⟨0, 0, 0⟩, 7, false, true⟩).isSpectator
      = true :=
  ⟨rfl, rfl⟩

/-- C5 (amended): `handlePlayerDeath` makes a player a spectator, and the next
session's preparation reset leaves spectators entirely unchanged (the flag is
never cleared; only non-spectators get their score zeroed and resources
refilled) — so a dead player stays a spectator in all later sessions until
disconnecting. -/
theorem C5_spectator_amended (p : Player) :
    ((handlePlayerDeath p).isSpectator = true) ∧
    (p.isSpectator = true → startGameCyclePlayer p = p) ∧
    (p.isSpectator = false →
      startGameCyclePlayer p = { p with score := 0, resources := fullResources }) := by
  refine ⟨rfl, fun h => ?_, fun h => ?_⟩
  · simp [startGameCyclePlayer, h]
  · simp [startGameCyclePlayer, h]

/-- Witness for C5 (amended): a spectator is untouched, a non-spectator is
reset. -/
theorem C5_spectator_amended_witness :
    startGameCyclePlayer ⟨5, "fay", ⟨0, 0⟩, ⟨0, 0, 0⟩, 9, false, true⟩ =
      ⟨5, "fay", ⟨0, 0⟩, ⟨0, 0, 0⟩, 9, false, true⟩ ∧
    startGameCyclePlayer ⟨6, "gus", ⟨0, 0⟩, ⟨10, 20, 30⟩, 9, false, false⟩ =
      { (⟨6, "gus", ⟨0, 0⟩, ⟨10, 20, 30⟩, 9, false, false⟩ : Player) with
          score := 0, resources := fullResources } :=
  ⟨(C5_spectator_amended ⟨5, "fay", ⟨0, 0⟩, ⟨0, 0, 0⟩, 9, false, true⟩).2.1 rfl,
   (C5_spectator_amended ⟨6, "gus", ⟨0, 0⟩, ⟨10, 20, 30⟩, 9, false, false⟩).2.2 rfl⟩

/-- C6 counterexample: nothing clamps positions to the 800×600 playable area.
The `movePlayer` handler stores the out-of-bounds target (1000, 600) verbatim
(no clamping at input time), and one movement tick from (800, 600) toward it
moves the player to x = 805 > 800. -/
theorem C6_bounds_counterexample :
    (movePlayerHandler 1000 600).targetX = 1000 ∧
    800 < ((moveStep 800 600 1000 600 fullResources).1).1 := by
  refine ⟨rfl, ?_⟩
  have hdist : distVal 800 600 1000 600 = 200 := by
    unfold distVal
    rw [show ((1000:ℝ) - 800) * ((1000:ℝ) - 800) + ((600:ℝ) - 600) * ((600:ℝ) - 600)
        = 200 ^ 2 by norm_num]
    exact Real.sqrt_sq (by norm_num)
  have hf : isFatigued fullResources = false := by decide
  unfold moveStep
  dsimp only
  rw [hdist, if_neg (by norm_num : ¬ (200:ℝ) < 1), hf]
  norm_num

/-- C6 (amended): no clamping exists anywhere on the movement path: the
`movePlayer` handler stores the client-supplied target verbatim, and a tick
within the snapping distance sets the position exactly to that stored target,
so positions are not confined to the playable-area bounds (see the
counterexample for an out-of-bounds step). -/
theorem C6_bounds_amended (x y px py tx ty : ℝ) (r : Resources)
    (hsnap : distVal px py tx ty < 1) :
    movePlayerHandler x y = ⟨x, y, true⟩ ∧
    moveStep px py tx ty r = ((tx, ty), false) := by
  refine ⟨rfl, ?_⟩
  unfold moveStep
  dsimp only
  rw [if_pos hsnap]

/-- Witness for C6 (amended): snapping onto a target half a unit away. -/
theorem C6_bounds_amended_witness :
    movePlayerHandler 3 4 = ⟨3, 4, true⟩ ∧
    moveStep 0 0 (1/2) 0 fullResources = ((1/2, 0), false) := by
  have h : distVal 0 0 (1/2) 0 < 1 := by
    unfold distVal
    rw [show ((1/2:ℝ) - 0) * ((1/2:ℝ) - 0) + ((0:ℝ) - 0) * ((0:ℝ) - 0)
        = (1/2) ^ 2 by norm_num]
    rw [Real.sqrt_sq (by norm_num)]
    norm_num
  exact C6_bounds_amended 3 4 0 0 (1/2) 0 fullResources h

/-- C7: on a movement tick beyond the snapping threshold, the step of a
player with some resource level at 0 is exactly half — componentwise, hence
in magnitude, with the same direction — of the step of a player with all
levels positive (base speed 5 halved to 5/2), and both players keep moving. -/
theorem C7_half_speed (px py tx ty : ℝ) (rF rN : Resources)
    (hfar : ¬ distVal px py tx ty < 1)
    (hF : isFatigued rF = true) (hN : isFatigued rN = false) :
    ((moveStep px py tx ty rF).1).1 - px = (((moveStep px py tx ty rN).1).1 - px) / 2 ∧
    ((moveStep px py tx ty rF).1).2 - py = (((moveStep px py tx ty rN).1).2 - py) / 2 ∧
    (moveStep px py tx ty rF).2 = true ∧ (moveStep px py tx ty rN).2 = true := by
  have hstepF : moveStep px py tx ty rF =
      ((px + (tx - px) / distVal px py tx ty * (5/2),
        py + (ty - py) / distVal px py tx ty * (5/2)), true) := by
    unfold moveStep
    dsimp only
    rw [if_neg hfar, hF]
    simp
  have hstepN : moveStep px py tx ty rN =
      ((px + (tx - px) / distVal px py tx ty * 5,
        py + (ty - py) / distVal px py tx ty * 5), true) := by
    unfold moveStep
    dsimp only
    rw [if_neg hfar, hN]
    simp
  rw [hstepF, hstepN]
  refine ⟨by ring, by ring, rfl, rfl⟩

/-- Witness for C7: from the origin toward (3, 4) at distance 5. -/
theorem C7_half_speed_witness :
    ((moveStep 0 0 3 4 ⟨0, 100, 100⟩).1).1 - 0 =
      (((moveStep 0 0 3 4 fullResources).1).1 - 0) / 2 ∧
    ((moveStep 0 0 3 4 ⟨0, 100, 100⟩).1).2 - 0 =
      (((moveStep 0 0 3 4 fullResources).1).2 - 0) / 2 ∧
    (moveStep 0 0 3 4 ⟨0, 100, 100⟩).2 = true ∧
    (moveStep 0 0 3 4 fullResources).2 = true := by
  have h5 : distVal 0 0 3 4 = 5 := by
    unfold distVal
    rw [show ((3:ℝ) - 0) * ((3:ℝ) - 0) + ((4:ℝ) - 0) * ((4:ℝ) - 0) = 5 ^ 2 by norm_num]
    exact Real.sqrt_sq (by norm_num)
  exact C7_half_speed 0 0 3 4 ⟨0, 100, 100⟩ fullResources
    (by rw [h5]; norm_num) (by decide) (by decide)

/-- C8: when the preparation countdown reaches zero with no non-spectator
player, the session stays in waiting and a fresh preparation countdown is
started; with at least one non-spectator it enters running with the full game
duration, daytime, and the freshly generated resources and safe zones. -/
theorem C8_start_gate (s : GState) (nr : List Resource) (nz : List SafeZone) :
    ((s.players.filter (fun p => !p.isSpectator)).length = 0 →
      (startGame s nr nz).gameStatus = .waiting ∧
      (startGame s nr nz).timeRemaining = PREPARATION_TIME) ∧
    ((s.players.filter (fun p => !p.isSpectator)).length ≠ 0 →
      (startGame s nr nz).gameStatus = .running ∧
      (startGame s nr nz).timeRemaining = GAME_DURATION ∧
      (startGame s nr nz).isDayTime = true ∧
      (startGame s nr nz).resources = nr ∧
      (startGame s nr nz).safeZones = nz) := by
  constructor
  · intro h
    unfold startGame
    dsimp only
    rw [if_pos h]
    exact ⟨rfl, rfl⟩
  · intro h
    unfold startGame
    dsimp only
    rw [if_neg h]
    exact ⟨rfl, rfl, rfl, rfl, rfl⟩

/-- Witness for C8: an all-spectator lobby loops back to waiting; a lobby with
one live player starts running. -/
theorem C8_start_gate_witness :
    ((startGame ⟨[⟨1, "sam", ⟨0, 0⟩, ⟨0, 0, 0⟩, 0, false, true⟩], [], [], true, 0, .waiting⟩
        [] []).gameStatus = .waiting ∧
      (startGame ⟨[⟨1, "sam", ⟨0, 0⟩, ⟨0, 0, 0⟩, 0, false, true⟩], [], [], true, 0, .waiting⟩
        [] []).timeRemaining = PREPARATION_TIME) ∧
    ((startGame ⟨[⟨2, "tia", ⟨0, 0⟩, fullResources, 0, false, false⟩], [], [], true, 0,
        .waiting⟩ [⟨9, .water, ⟨1, 1⟩, 3⟩] [⟨1, ⟨2, 2⟩, 50⟩]).gameStatus = .running ∧
      (startGame ⟨[⟨2, "tia", ⟨0, 0⟩, fullResources, 0, false, false⟩], [], [], true, 0,
        .waiting⟩ [⟨9, .water, ⟨1, 1⟩, 3⟩] [⟨1, ⟨2, 2⟩, 50⟩]).timeRemaining = GAME_DURATION ∧
      (startGame ⟨[⟨2, "tia", ⟨0, 0⟩, fullResources, 0, false, false⟩], [], [], true, 0,
        .waiting⟩ [⟨9, .water, ⟨1, 1⟩, 3⟩] [⟨1, ⟨2, 2⟩, 50⟩]).isDayTime = true ∧
      (startGame ⟨[⟨2, "tia", ⟨0, 0⟩, fullResources, 0, false, false⟩], [], [], true, 0,
        .waiting⟩ [⟨9, .water, ⟨1, 1⟩, 3⟩] [⟨1, ⟨2, 2⟩, 50⟩]).resources =
        [⟨9, .water, ⟨1, 1⟩, 3⟩] ∧
      (startGame ⟨[⟨2, "tia", ⟨0, 0⟩, fullResources, 0, false, false⟩], [], [], true, 0,
        .waiting⟩ [⟨9, .water, ⟨1, 1⟩, 3⟩] [⟨1, ⟨2, 2⟩, 50⟩]).safeZones = [⟨1, ⟨2, 2⟩, 50⟩]) :=
  ⟨(C8_start_gate ⟨[⟨1, "sam", ⟨0, 0⟩, ⟨0, 0, 0⟩, 0, false, true⟩], [], [], true, 0,
      .waiting⟩ [] []).1 (by decide),
   (C8_start_gate ⟨[⟨2, "tia", ⟨0, 0⟩, fullResources, 0, false, false⟩], [], [], true, 0,
      .waiting⟩ [⟨9, .water, ⟨1, 1⟩, 3⟩] [⟨1, ⟨2, 2⟩, 50⟩]).2 (by decide)⟩

/-- C9: each spawn-task invocation while running preserves
`resourceCount ≤ 30`: at or above 30 nothing is spawned (state unchanged),
below 15 exactly the shortfall is spawned reaching exactly 15, and otherwise
at most one resource is spawned. -/
theorem C9_spawn_bounds (s : GState) (coin : Bool) (fresh : Nat → Resource)
    (hrun : s.gameStatus = .running) :
    (s.resources.length ≤ MAX_RESOURCES →
      (spawnTick s coin fresh).resources.length ≤ MAX_RESOURCES) ∧
    (MAX_RESOURCES ≤ s.resources.length → spawnTick s coin fresh = s) ∧
    (s.resources.length < MIN_RESOURCES →
      (spawnTick s coin fresh).resources.length = MIN_RESOURCES) ∧
    (MIN_RESOURCES ≤ s.resources.length → s.resources.length < MAX_RESOURCES →
      (spawnTick s coin fresh).resources.length ≤ s.resources.length + 1) := by
  unfold spawnTick
  rw [if_neg (by simp [hrun])]
  dsimp only
  refine ⟨?_, ?_, ?_, ?_⟩
  · intro hle
    split
    · exact hle
    · next hmax =>
      split
      · next hmin =>
        simp only [List.length_append, List.length_map, List.length_range,
          MIN_RESOURCES, MAX_RESOURCES] at *
        omega
      · next hmin =>
        split
        · simp only [List.length_append, List.length_singleton,
            MIN_RESOURCES, MAX_RESOURCES] at *
          omega
        · exact hle
  · intro hge
    rw [if_pos hge]
  · intro hlt
    rw [if_neg (by simp only [MIN_RESOURCES, MAX_RESOURCES] at hlt ⊢; omega),
      if_pos hlt]
    simp only [List.length_append, List.length_map, List.length_range,
      MIN_RESOURCES] at *
    omega
  · intro h1 h2
    rw [if_neg (not_le.2 h2), if_neg (not_lt.2 h1)]
    split
    · simp
    · omega

/-- Witness for C9: an empty resource list during running is topped up to
exactly the minimum. -/
theorem C9_spawn_bounds_witness :
    ((spawnTick ⟨[], [], [], true, 100, .running⟩ true
        (fun n => ⟨n, .food, ⟨0, 0⟩, 1⟩)).resources.length ≤ MAX_RESOURCES) ∧
    (MAX_RESOURCES ≤ ([] : List Resource).length →
      spawnTick ⟨[], [], [], true, 100, .running⟩ true (fun n => ⟨n, .food, ⟨0, 0⟩, 1⟩) =
        ⟨[], [], [], true, 100, .running⟩) ∧
    ((spawnTick ⟨[], [], [], true, 100, .running⟩ true
        (fun n => ⟨n, .food, ⟨0, 0⟩, 1⟩)).resources.length = MIN_RESOURCES) ∧
    (MIN_RESOURCES ≤ ([] : List Resource).length → ([] : List Resource).length < MAX_RESOURCES →
      (spawnTick ⟨[], [], [], true, 100, .running⟩ true
        (fun n => ⟨n, .food, ⟨0, 0⟩, 1⟩)).resources.length ≤ 0 + 1) := by
  have h := C9_spawn_bounds ⟨[], [], [], true, 100, .running⟩ true
    (fun n => ⟨n, .food, ⟨0, 0⟩, 1⟩) rfl
  exact ⟨h.1 (by norm_num [MAX_RESOURCES]), h.2.1, h.2.2.1 (by norm_num [MIN_RESOURCES]),
    h.2.2.2⟩

/-- C10: the winner computation of `endGame` is NOT total: the source's
`players.reduce(...)` has no defined result on the empty player list (it
throws a `TypeError`), modelled here as `none`; on any non-empty list the
winner is defined. -/
theorem C10_endGame_winner_partial :
    endGameWinner [] = none ∧
    ∀ (p : Player) (ps : List Player), (endGameWinner (p :: ps)).isSome = true :=
  ⟨rfl, fun _ _ => rfl⟩

end PixelSurvival
